import Mathlib

/-!
Verification of the sdwan-webhook-sse server (`src/server.ts`).

The development shallowly embeds the server's data model and operations:
the bounded event cache (`pushCache`, `MAX_CACHE`), the monotone id
counter, the SSE broadcaster (`broadcast`, `sendSseEvent`), the ingest
path (`readBody`, the POST branch), the basic-auth gate
(`requireAuthIfConfigured`, `parseBasicAuth`) and the request dispatch
(`http.createServer` handler).  JavaScript run-to-completion semantics
justifies treating each synchronous handler block as one atomic step;
traces of such steps are modelled by `Op`/`runTrace`.
-/

namespace Sdwan

/-! ### String utilities (models of the JS string primitives the server uses) -/

/-- Model of `String.prototype.split("\n")` on the character list: splits at
each newline; always returns at least one piece. -/
def splitOnCharList (sep : Char) : List Char → List (List Char)
  | [] => [[]]
  | c :: cs =>
    let rest := splitOnCharList sep cs
    if c = sep then [] :: rest
    else
      match rest with
      | [] => [[c]]
      | piece :: more => (c :: piece) :: more

/-- Split a string at each occurrence of `sep` (model of JS `split` with a
one-character separator). -/
def splitStr (sep : Char) (s : String) : List String :=
  (splitOnCharList sep s.data).map String.mk

/-- Character-list prefix test. -/
def startsChars : List Char → List Char → Bool
  | _, [] => true
  | [], _ :: _ => false
  | c :: cs, p :: ps => c = p && startsChars cs ps

/-- Model of `String.prototype.startsWith`. -/
def strStarts (s pre : String) : Bool :=
  startsChars s.data pre.data

/-- Substring search on character lists (model of `String.prototype.includes`). -/
def containsChars (hay needle : List Char) : Bool :=
  match hay with
  | [] => startsChars [] needle
  | _ :: rest => startsChars hay needle || containsChars rest needle

/-- Model of `String.prototype.includes`. -/
def strIncludes (s sub : String) : Bool :=
  containsChars s.data sub.data

/-- Model of `String.prototype.toLowerCase` (exact on the ASCII header
values the server inspects). -/
def lowerStr (s : String) : String :=
  String.mk (s.data.map Char.toLower)

/-- UTF-8 byte size of one character, as `Buffer` measures it. -/
def charUtf8Size (c : Char) : Nat :=
  if c.toNat < 0x80 then 1
  else if c.toNat < 0x800 then 2
  else if c.toNat < 0x10000 then 3
  else 4

/-- Model of `Buffer.byteLength` / `chunk.length` for a chunk of text. -/
def strBytes (s : String) : Nat :=
  (s.data.map charUtf8Size).sum

/-- Concatenation of the body chunks (model of `Buffer.concat(chunks).toString("utf8")`). -/
def joinChunks : List String → String
  | [] => ""
  | c :: cs => c ++ joinChunks cs

/-! ### JSON values

A JavaScript value as the server manipulates it: `JSON.parse` results,
raw payload text, and the parse-error fallback record are all `Json`.
Numbers keep their source lexeme (no claim depends on numeric value). -/

inductive Json where
  | null : Json
  | bool : Bool → Json
  | num : String → Json
  | str : String → Json
  | arr : List Json → Json
  | obj : List (String × Json) → Json

/-- One hex digit, lower case. -/
def hexDigit (n : Nat) : Char :=
  if n < 10 then Char.ofNat (48 + n) else Char.ofNat (87 + n)

/-- JSON string escaping as `JSON.stringify` performs it. -/
def escChar (c : Char) : List Char :=
  if c = '\"' then ['\\', '\"']
  else if c = '\\' then ['\\', '\\']
  else if c = '\n' then ['\\', 'n']
  else if c = '\r' then ['\\', 'r']
  else if c = '\t' then ['\\', 't']
  else if c.toNat < 32 then
    ['\\', 'u', '0', '0', hexDigit (c.toNat / 16), hexDigit (c.toNat % 16)]
  else [c]

/-- Escaped, quoted JSON string literal. -/
def quoteStr (s : String) : String :=
  String.mk ('\"' :: (s.data.flatMap escChar) ++ ['\"'])

mutual

/-- Model of `JSON.stringify` (no indentation argument, hence no raw
newlines outside of what escaping forbids anyway). -/
def jsonStringify : Json → String
  | .null => "null"
  | .bool true => "true"
  | .bool false => "false"
  | .num lit => lit
  | .str s => quoteStr s
  | .arr xs => "[" ++ stringifyArr xs ++ "]"
  | .obj kvs => "\x7b" ++ stringifyObj kvs ++ "\x7d"

/-- Comma-separated serialization of array elements. -/
def stringifyArr : List Json → String
  | [] => ""
  | [x] => jsonStringify x
  | x :: y :: xs => jsonStringify x ++ "," ++ stringifyArr (y :: xs)

/-- Comma-separated serialization of object members. -/
def stringifyObj : List (String × Json) → String
  | [] => ""
  | [(k, v)] => quoteStr k ++ ":" ++ jsonStringify v
  | (k, v) :: m :: kvs => quoteStr k ++ ":" ++ jsonStringify v ++ "," ++ stringifyObj (m :: kvs)

end

/-! ### JSON parsing (model of `JSON.parse`) -/

/-- Skip JSON whitespace. -/
def skipWs : List Char → List Char
  | [] => []
  | c :: cs => if c = ' ' ∨ c = '\n' ∨ c = '\t' ∨ c = '\r' then skipWs cs else c :: cs

/-- Expect a literal character sequence, returning the remainder. -/
def expectLit : List Char → List Char → Option (List Char)
  | [], cs => some cs
  | _ :: _, [] => none
  | l :: ls, c :: cs => if c = l then expectLit ls cs else none

/-- Value of a hex digit character. -/
def hexVal? (c : Char) : Option Nat :=
  if '0' ≤ c ∧ c ≤ '9' then some (c.toNat - 48)
  else if 'a' ≤ c ∧ c ≤ 'f' then some (c.toNat - 87)
  else if 'A' ≤ c ∧ c ≤ 'F' then some (c.toNat - 65 + 10)
  else none

/-- Translation of a single-character JSON escape. -/
def escFor? (c : Char) : Option Char :=
  if c = '\"' then some '\"'
  else if c = '\\' then some '\\'
  else if c = '/' then some '/'
  else if c = 'b' then some (Char.ofNat 8)
  else if c = 'f' then some (Char.ofNat 12)
  else if c = 'n' then some '\n'
  else if c = 'r' then some '\r'
  else if c = 't' then some '\t'
  else none

/-- Parse the body of a JSON string after the opening quote. -/
def parseStrChars : List Char → Option (List Char × List Char)
  | [] => none
  | c :: cs =>
    if c = '\"' then some ([], cs)
    else if c = '\\' then
      match cs with
      | [] => none
      | e :: cs' =>
        if e = 'u' then
          match cs' with
          | a :: b :: c2 :: d :: rest => do
            let ha ← hexVal? a
            let hb ← hexVal? b
            let hc ← hexVal? c2
            let hd ← hexVal? d
            let (s, r) ← parseStrChars rest
            pure (Char.ofNat (((ha * 16 + hb) * 16 + hc) * 16 + hd) :: s, r)
          | _ => none
        else do
          let ec ← escFor? e
          let (s, r) ← parseStrChars cs'
          pure (ec :: s, r)
    else if c.toNat < 32 then none
    else do
      let (s, r) ← parseStrChars cs
      pure (c :: s, r)

/-- Decimal digit test. -/
def isDig (c : Char) : Bool := '0' ≤ c && c ≤ '9'

/-- Take a maximal run of decimal digits. -/
def takeDigits : List Char → (List Char × List Char)
  | [] => ([], [])
  | c :: cs =>
    if isDig c then
      let (d, r) := takeDigits cs
      (c :: d, r)
    else ([], c :: cs)

/-- Parse the integer part of a JSON number: `0` or a nonzero digit
followed by digits. -/
def parseIntPart : List Char → Option (List Char × List Char)
  | [] => none
  | c :: cs =>
    if c = '0' then some ([c], cs)
    else if isDig c then
      let (d, r) := takeDigits cs
      some (c :: d, r)
    else none

/-- Parse the optional fraction part. -/
def parseFrac : List Char → Option (List Char × List Char)
  | '.' :: cs =>
    match takeDigits cs with
    | ([], _) => none
    | (d, r) => some ('.' :: d, r)
  | cs => some ([], cs)

/-- Parse the optional exponent part. -/
def parseExp : List Char → Option (List Char × List Char)
  | c :: cs =>
    if c = 'e' ∨ c = 'E' then
      match cs with
      | s :: cs' =>
        if s = '+' ∨ s = '-' then
          match takeDigits cs' with
          | ([], _) => none
          | (d, r) => some (c :: s :: d, r)
        else
          match takeDigits cs with
          | ([], _) => none
          | (d, r) => some (c :: d, r)
      | [] => none
    else some ([], c :: cs)
  | [] => some ([], [])

/-- Parse a JSON number lexeme. -/
def parseNum : List Char → Option (List Char × List Char)
  | cs => do
    let (sign, cs₁) := match cs with
      | '-' :: r => (['-'], r)
      | r => (([] : List Char), r)
    let (ip, cs₂) ← parseIntPart cs₁
    let (fp, cs₃) ← parseFrac cs₂
    let (ep, cs₄) ← parseExp cs₃
    pure (sign ++ ip ++ fp ++ ep, cs₄)

mutual

/-- Fueled recursive-descent JSON value parser. -/
def parseVal : Nat → List Char → Option (Json × List Char)
  | 0, _ => none
  | fuel + 1, cs =>
    match skipWs cs with
    | [] => none
    | c :: rest =>
      if c = 'n' then (expectLit ['u', 'l', 'l'] rest).map (fun r => (Json.null, r))
      else if c = 't' then (expectLit ['r', 'u', 'e'] rest).map (fun r => (Json.bool true, r))
      else if c = 'f' then (expectLit ['a', 'l', 's', 'e'] rest).map (fun r => (Json.bool false, r))
      else if c = '\"' then (parseStrChars rest).map (fun p => (Json.str (String.mk p.1), p.2))
      else if c = '[' then
        match skipWs rest with
        | ']' :: r => some (Json.arr [], r)
        | other => (parseArrItems fuel other).map (fun p => (Json.arr p.1, p.2))
      else if c = '\x7b' then
        match skipWs rest with
        | '\x7d' :: r => some (Json.obj [], r)
        | other => (parseObjItems fuel other).map (fun p => (Json.obj p.1, p.2))
      else
        (parseNum (c :: rest)).map (fun p => (Json.num (String.mk p.1), p.2))

/-- Parse one or more comma-separated array items up to `]`. -/
def parseArrItems : Nat → List Char → Option (List Json × List Char)
  | 0, _ => none
  | fuel + 1, cs => do
    let (v, r) ← parseVal fuel cs
    match skipWs r with
    | ',' :: r' => (parseArrItems fuel r').map (fun p => (v :: p.1, p.2))
    | ']' :: r' => some ([v], r')
    | _ => none

/-- Parse one or more comma-separated object members up to the closing brace. -/
def parseObjItems : Nat → List Char → Option (List (String × Json) × List Char)
  | 0, _ => none
  | fuel + 1, cs =>
    match skipWs cs with
    | '\"' :: rest => do
      let (k, r) ← parseStrChars rest
      match skipWs r with
      | ':' :: r' => do
        let (v, r'') ← parseVal fuel r'
        match skipWs r'' with
        | ',' :: r3 => (parseObjItems fuel r3).map (fun p => ((String.mk k, v) :: p.1, p.2))
        | '\x7d' :: r3 => some ([(String.mk k, v)], r3)
        | _ => none
      | _ => none
    | _ => none

end

/-- Model of `JSON.parse`: `none` models the thrown `SyntaxError`. -/
def jsonParse (s : String) : Option Json :=
  match parseVal (s.data.length + 1) s.data with
  | some (j, rest) => if skipWs rest = [] then some j else none
  | none => none

/-! ### Configuration and request model

`Config` models the environment-derived settings (`BASIC_USER`,
`BASIC_PASS`).  `Headers` models the request headers the server reads;
`Request` models one inbound HTTP request, with the payload as the chunk
sequence the transport delivers and `now` the value the clock would
return (`new Date().toISOString()`). -/

/-- The webhook endpoint path (`PATH` in the source). -/
def PATH : String := "/v1/webhook/sdwan"

/-- The cache capacity (`MAX_CACHE` in the source). -/
def MAX_CACHE : Nat := 100

/-- The ingest body size limit in bytes (`limitBytes` default in `readBody`). -/
def LIMIT_BYTES : Nat := 2 * 1024 * 1024

/-- Environment configuration: `BASIC_USER` / `BASIC_PASS` (empty string
models an unset variable, as `process.env.X ?? ""` produces). -/
structure Config where
  basicUser : String
  basicPass : String
deriving DecidableEq

/-- The request headers the server reads.  `none` models an absent header. -/
structure Headers where
  host : Option String
  accept : Option String
  contentType : Option String
  authorization : Option String
  xForwardedFor : Option String
deriving DecidableEq

/-- One inbound HTTP request.  `chunks` are the body chunks the transport
delivers in order; `socketRemoteAddress` models `req.socket.remoteAddress`;
`now` models the arrival timestamp the clock returns. -/
structure Request where
  method : String
  pathname : String
  headers : Headers
  socketRemoteAddress : Option String
  chunks : List String
  now : String
deriving DecidableEq

/-! ### Stored events, subscribers, server state -/

/-- A stored event (`StoredEvent` in the source). -/
structure StoredEvent where
  id : Nat
  receivedAt : String
  sourceIp : String
  headers : Headers
  body : Json

/-- One semantic SSE frame as delivered to a subscriber's sink: the
catch-up `snapshot` frame or one `alarm` update frame. -/
inductive Frame where
  | snapshot : List StoredEvent → Frame
  | alarm : StoredEvent → Nat → Frame

/-- A subscriber (`SseClient` in the source).  `cid` models the object
identity that membership in the `clients` `Set` is keyed on; `sent` is the
history of frames written to its sink; `broken` models a sink whose
`write` throws (closed/broken transport).  The ping timer is real time and
not modelled. -/
structure SseClient where
  cid : Nat
  sent : List Frame
  broken : Bool

/-- The process-wide mutable state: the id counter, the bounded cache and
the subscriber set (kept in insertion order, as `Set` iteration is).
`nextCid` generates subscriber identities; `published` is a ghost log of
every event handed to `broadcast`, in append order. -/
structure ServerState where
  nextId : Nat
  cache : List StoredEvent
  clients : List SseClient
  nextCid : Nat
  published : List StoredEvent

/-- The initial state (`let nextId = 1; const cache = []; const clients = new Set()`). -/
def initState : ServerState :=
  { nextId := 1, cache := [], clients := [], nextCid := 0, published := [] }

/-- The server's possible responses, one constructor per terminal call
site in the handler.  `unauthorized` is the 401 challenge with the
`WWW-Authenticate: Basic realm="sdwan-webhook"` header; `noContent` the
204 success acknowledgement; `internalError` the 500 text response from
the outer catch; `sseStream` marks that an event-stream response began. -/
inductive Response where
  | unauthorized : Response
  | redirect : String → Response
  | staticAsset : String → Response
  | demoHtml : Response
  | noContent : Response
  | jsonItems : List StoredEvent → Response
  | sseStream : Response
  | methodNotAllowed : Response
  | notFound : Response
  | internalError : Response

/-! ### Event store (`pushCache`, lines 29–32) -/

/-- The `while (cache.length > MAX_CACHE) cache.shift()` loop, with an
explicit iteration bound: each iteration removes one element, so the list
length bounds the number of iterations and the fueled form is exactly the
loop. -/
def shiftLoopFuel : Nat → List StoredEvent → List StoredEvent
  | 0, l => l
  | fuel + 1, l => if l.length > MAX_CACHE then shiftLoopFuel fuel l.tail else l

/-- The eviction loop on a list. -/
def shiftLoop (l : List StoredEvent) : List StoredEvent :=
  shiftLoopFuel l.length l

/-- `pushCache`: append the event, then evict from the front while over
capacity. -/
def pushCache (e : StoredEvent) (cache : List StoredEvent) : List StoredEvent :=
  shiftLoop (cache ++ [e])

/-! ### SSE wire framing (`sendSseEvent`, lines 92–98) -/

/-- The exact sequence of `res.write` payloads `sendSseEvent` performs for
one frame: an optional `id:` line, the `event:` line, one `data:` line per
newline-separated piece of the serialized payload, and a final blank line. -/
def sendSseEvent (event : String) (data : Json) (id : Option Nat) : List String :=
  (match id with
    | some i => ["id: " ++ Nat.repr i ++ "\n"]
    | none => []) ++
  ["event: " ++ event ++ "\n"] ++
  ((splitStr '\n' (jsonStringify data)).map (fun line => "data: " ++ line ++ "\n")) ++
  ["\n"]

/-- The JSON object `JSON.stringify` sees for a stored event (keys in
insertion order of the `StoredEvent` literal; the header map restricted to
the header fields the model carries). -/
def headersToJson (h : Headers) : Json :=
  Json.obj
    (((h.host.map (fun v => ("host", Json.str v))).toList) ++
     ((h.accept.map (fun v => ("accept", Json.str v))).toList) ++
     ((h.contentType.map (fun v => ("content-type", Json.str v))).toList) ++
     ((h.authorization.map (fun v => ("authorization", Json.str v))).toList) ++
     ((h.xForwardedFor.map (fun v => ("x-forwarded-for", Json.str v))).toList))

/-- A stored event as the JSON value the server serializes. -/
def eventToJson (e : StoredEvent) : Json :=
  Json.obj
    [("id", Json.num (Nat.repr e.id)),
     ("receivedAt", Json.str e.receivedAt),
     ("sourceIp", Json.str e.sourceIp),
     ("headers", headersToJson e.headers),
     ("body", e.body)]

/-- The `{ items: cache.slice() }` payload. -/
def itemsJson (items : List StoredEvent) : Json :=
  Json.obj [("items", Json.arr (items.map eventToJson))]

/-- The writes a semantic frame produces on the wire: the snapshot frame
is sent without an id (`sendSseEvent(res, "snapshot", {items}, undefined)`,
line 250); each alarm frame carries the event's id
(`sendSseEvent(c.res, "alarm", e, id)` via `broadcast`, line 233). -/
def renderFrame : Frame → List String
  | .snapshot items => sendSseEvent "snapshot" (itemsJson items) none
  | .alarm e i => sendSseEvent "alarm" (eventToJson e) (some i)

/-! ### Broadcast (`broadcast`, lines 100–108) -/

/-- Deliver one frame to every registered subscriber: a throwing write
(broken sink) is caught and ignored — the subscriber's sink receives
nothing and the subscriber stays registered. -/
def broadcastClients (fr : Frame) (cs : List SseClient) : List SseClient :=
  cs.map (fun c => if c.broken then c else { c with sent := c.sent ++ [fr] })

/-- `broadcast("alarm", e, id)`: deliver to every client; the ghost
`published` log records the event. -/
def doBroadcast (e : StoredEvent) (i : Nat) (st : ServerState) : ServerState :=
  { st with
    clients := broadcastClients (Frame.alarm e i) st.clients,
    published := st.published ++ [e] }

/-! ### Request accessors (`wantsSse`, `wantsJson`, `getClientIp`) -/

/-- `String(req.headers[h] ?? "")`. -/
def headerStr (h : Option String) : String := h.getD ""

/-- `wantsSse` (lines 34–37). -/
def wantsSse (req : Request) : Bool :=
  strIncludes (lowerStr (headerStr req.headers.accept)) "text/event-stream"

/-- `wantsJson` (lines 39–42). -/
def wantsJson (req : Request) : Bool :=
  strIncludes (lowerStr (headerStr req.headers.accept)) "application/json"

/-- `getClientIp` (lines 110–115): prefer the first comma-separated hop of
`x-forwarded-for` when present and nonblank, else the socket peer address. -/
def getClientIp (req : Request) : String :=
  match req.headers.xForwardedFor with
  | some xf =>
    if xf.trim ≠ "" then ((splitStr ',' xf).headD "").trim
    else headerStr req.socketRemoteAddress
  | none => headerStr req.socketRemoteAddress

/-! ### Body reading (`readBody`, lines 117–133) -/

/-- The chunk loop of `readBody`: one `data` listener invocation per
chunk (update the running byte total, reject as soon as it exceeds the
limit, otherwise keep the chunk), then `end` resolves with the
concatenation. -/
def readBodyGo (limitBytes : Nat) : List String → Nat → String → Except String String
  | [], _, acc => .ok acc
  | c :: rest, total, acc =>
    if total + strBytes c > limitBytes then Except.error "Payload too large"
    else readBodyGo limitBytes rest (total + strBytes c) (acc ++ c)

/-- `readBody`: accumulate chunks, keeping a running byte total; as soon
as the total exceeds the limit the promise rejects with
`Payload too large` and the request is destroyed.  The server always
calls it with the 2 MiB default limit. -/
def readBody (chunks : List String) (limitBytes : Nat) : Except String String :=
  readBodyGo limitBytes chunks 0 ""

/-! ### Basic auth (`parseBasicAuth`, `requireAuthIfConfigured`, lines 44–68) -/

/-- Value of one base64 alphabet character. -/
def b64Val? (c : Char) : Option Nat :=
  if 'A' ≤ c ∧ c ≤ 'Z' then some (c.toNat - 65)
  else if 'a' ≤ c ∧ c ≤ 'z' then some (c.toNat - 97 + 26)
  else if '0' ≤ c ∧ c ≤ '9' then some (c.toNat - 48 + 52)
  else if c = '+' then some 62
  else if c = '/' then some 63
  else none

/-- Regroup 6-bit values into bytes (base64 decoding after filtering,
as `Buffer.from(b64, "base64")` leniently does). -/
def b64Regroup : List Nat → List Nat
  | a :: b :: c :: d :: rest =>
    (a * 4 + b / 16) :: ((b % 16) * 16 + c / 4) :: ((c % 4) * 64 + d) :: b64Regroup rest
  | [a, b, c] => [a * 4 + b / 16, (b % 16) * 16 + c / 4]
  | [a, b] => [a * 4 + b / 16]
  | _ => []

/-- Model of `Buffer.from(b64, "base64").toString("utf8")`: non-alphabet
characters (including padding) are skipped; decoded bytes are read back as
characters (exact for the ASCII credentials the gate compares). -/
def decodeBase64 (s : String) : String :=
  String.mk ((b64Regroup (s.data.filterMap b64Val?)).map Char.ofNat)

/-- Split a decoded credential at the first colon (`decoded.indexOf(":")`,
`decoded.slice(0, idx)`, `decoded.slice(idx + 1)`); `none` when no colon. -/
def splitColon : List Char → Option (List Char × List Char)
  | [] => none
  | c :: cs =>
    if c = ':' then some ([], cs)
    else (splitColon cs).map (fun p => (c :: p.1, p.2))

/-- `parseBasicAuth` (lines 44–56): require the (case-insensitive)
`basic ` scheme, base64-decode the remainder, split at the first colon. -/
def parseBasicAuth (req : Request) : Option (String × String) :=
  let h := headerStr req.headers.authorization
  if strStarts (lowerStr h) "basic " then
    let b64 := (String.mk (h.data.drop 6)).trim
    let decoded := decodeBase64 b64
    match splitColon decoded.data with
    | some (u, p) => some (String.mk u, String.mk p)
    | none => none
  else none

/-- `requireAuthIfConfigured` (lines 58–68): the gate is off when both
configured values are empty; otherwise the parsed credentials must equal
both configured values exactly.  `false` means the 401 challenge was sent. -/
def requireAuthIfConfigured (cfg : Config) (req : Request) : Bool :=
  if cfg.basicUser = "" ∧ cfg.basicPass = "" then true
  else
    match parseBasicAuth req with
    | none => false
    | some (u, p) => u = cfg.basicUser ∧ p = cfg.basicPass

/-! ### The POST branch (lines 211–238) and SSE subscription (lines 240–269) -/

/-- The payload decoding of the POST branch (lines 213–221): JSON content
types are parsed, an empty payload standing in for `null`
(`raw.toString("utf8") || "null"`); a parse failure is recorded as the
`{_parseError, raw}` record; other content types keep the raw text. -/
def bodyOfPost (contentTypeHeader : Option String) (raw : String) : Json :=
  if strIncludes (lowerStr (headerStr contentTypeHeader)) "application/json" then
    match jsonParse (if raw = "" then "null" else raw) with
    | some j => j
    | none => Json.obj [("_parseError", Json.str "invalid json"), ("raw", Json.str raw)]
  else Json.str raw

/-- The stored event the POST branch constructs (lines 223–230). -/
def mkEvent (req : Request) (i : Nat) (raw : String) : StoredEvent :=
  { id := i, receivedAt := req.now, sourceIp := getClientIp req,
    headers := req.headers, body := bodyOfPost req.headers.contentType raw }

/-- The POST handler after a successful body read: decode the payload per
content type, assign the next id, build the stored event, append it to the
cache and broadcast it, answer 204.  A rejected body read propagates to
the outer catch, which answers 500 (lines 287–292). -/
def handlePost (st : ServerState) (req : Request) : ServerState × Response :=
  match readBody req.chunks LIMIT_BYTES with
  | .error _ => (st, Response.internalError)
  | .ok raw =>
    let i := st.nextId
    let e := mkEvent req i raw
    let st' := { st with nextId := st.nextId + 1, cache := pushCache e st.cache }
    (doBroadcast e i st', Response.noContent)

/-- The SSE GET branch: synchronously send the snapshot frame, then add
the subscriber to the active set (lines 250–261; no suspension point lies
between the two, so they form one atomic step). -/
def sseConnect (st : ServerState) : ServerState × Response :=
  let c : SseClient := { cid := st.nextCid, sent := [Frame.snapshot st.cache], broken := false }
  ({ st with clients := st.clients ++ [c], nextCid := st.nextCid + 1 }, Response.sseStream)

/-- The `close` listener (lines 263–266): remove the subscriber from the
active set (idempotent `Set.delete`). -/
def closeClient (cid : Nat) (st : ServerState) : ServerState :=
  { st with clients := st.clients.filter (fun c => c.cid ≠ cid) }

/-- Transport breakage: the subscriber's sink starts throwing on write.
(The state of the sink is external; this step only flips the model flag.) -/
def breakClient (cid : Nat) (st : ServerState) : ServerState :=
  { st with clients := st.clients.map (fun c => if c.cid = cid then { c with broken := true } else c) }

/-! ### Request dispatch (`http.createServer` handler, lines 187–293) -/

/-- The full request handler: the auth gate runs before any dispatch;
then static files, the root redirect, and the webhook endpoint (POST
ingest, GET SSE / JSON snapshot / demo page), 405 and 404 fallthroughs. -/
def handleRequest (cfg : Config) (st : ServerState) (req : Request) : ServerState × Response :=
  if ¬ requireAuthIfConfigured cfg req then (st, Response.unauthorized)
  else if req.method = "GET" ∧ strStarts req.pathname "/static/" then
    (st, Response.staticAsset req.pathname)
  else if req.method = "GET" ∧ req.pathname = "/" then (st, Response.redirect PATH)
  else if req.pathname = PATH then
    if req.method = "POST" then handlePost st req
    else if req.method = "GET" then
      if wantsSse req then sseConnect st
      else if wantsJson req then (st, Response.jsonItems st.cache)
      else (st, Response.demoHtml)
    else (st, Response.methodNotAllowed)
  else (st, Response.notFound)

/-! ### Traces

Each constructor is one atomic synchronous block of the event loop:
an ingest request's post-read section, an SSE subscription, a transport
breakage, a close notification. -/

/-- One atomic step of the event loop. -/
inductive Op where
  | ingest : Request → Op
  | connect : Op
  | sinkFail : Nat → Op
  | close : Nat → Op
deriving DecidableEq

/-- Apply one step to the state. -/
def stepOp (st : ServerState) : Op → ServerState
  | .ingest req => (handlePost st req).1
  | .connect => (sseConnect st).1
  | .sinkFail cid => breakClient cid st
  | .close cid => closeClient cid st

/-- Run a trace from a given state. -/
def runFrom (st : ServerState) (ops : List Op) : ServerState :=
  ops.foldl stepOp st

/-- Run a trace from the initial state. -/
def runTrace (ops : List Op) : ServerState :=
  runFrom initState ops

/-! ### Observation helpers used by the statements -/

/-- The update events a subscriber's sink received, in delivery order. -/
def alarmEvents (fs : List Frame) : List StoredEvent :=
  fs.filterMap (fun f => match f with | .alarm e _ => some e | _ => none)

/-- Look a subscriber up by its identity in the active set. -/
def getClient (x : Nat) : List SseClient → Option SseClient
  | [] => none
  | c :: cs => if c.cid = x then some c else getClient x cs

/-- The `data:` lines a JSON payload produces on the wire. -/
def dataLines (d : Json) : List String :=
  (splitStr '\n' (jsonStringify d)).map (fun line => "data: " ++ line ++ "\n")

/-- Whether a wire line is an identifier line. -/
def isIdLine (l : String) : Bool :=
  strStarts l "id: "

/-- The first member key of a JSON object, if any (used to discriminate
records by their key names). -/
def jsonFirstKey : Json → Option String
  | .obj ((k, _) :: _) => some k
  | _ => none

/-- Total byte size of a request body (what `readBody` accumulates). -/
def totalBytes (chunks : List String) : Nat :=
  (chunks.map strBytes).sum

/-! ### Sample data (concrete inputs used to instantiate the theorems) -/

/-- Headers of a JSON ingest request. -/
def samplePostHeaders : Headers :=
  { host := some "localhost", accept := none, contentType := some "application/json",
    authorization := none, xForwardedFor := none }

/-- A well-formed JSON ingest request. -/
def samplePost : Request :=
  { method := "POST", pathname := PATH, headers := samplePostHeaders,
    socketRemoteAddress := some "192.0.2.1",
    chunks := ["\x7b\"headline\":\"BFD TLOC down\"\x7d"],
    now := "2026-01-01T00:00:00.000Z" }

/-- An ingest request declaring JSON but carrying unparseable text. -/
def samplePostInvalid : Request :=
  { samplePost with chunks := ["not-json"] }

/-- An ingest request declaring JSON with an empty (zero-byte) payload. -/
def samplePostEmpty : Request :=
  { samplePost with chunks := [] }

/-- A snapshot-query request without credentials. -/
def plainGet : Request :=
  { method := "GET", pathname := PATH,
    headers := { host := some "localhost", accept := some "application/json",
                 contentType := none, authorization := none, xForwardedFor := none },
    socketRemoteAddress := none, chunks := [], now := "2026-01-01T00:00:00.000Z" }

/-- A single body chunk one byte over the ingest limit. -/
def oversizedChunk : String :=
  String.mk (List.replicate (LIMIT_BYTES + 1) 'a')

/-- An ingest request whose payload exceeds the limit. -/
def oversizedPost : Request :=
  { samplePost with chunks := [oversizedChunk] }

/-- A sample stored event. -/
def sampleEvent : StoredEvent :=
  { id := 1, receivedAt := "2026-01-01T00:00:00.000Z", sourceIp := "192.0.2.1",
    headers := samplePostHeaders, body := Json.null }

/-! ## Store lemmas -/

/-- The eviction loop computes the length-bounded suffix, given enough fuel. -/
theorem shiftLoopFuel_eq (fuel : Nat) :
    ∀ l : List StoredEvent, l.length ≤ fuel →
      shiftLoopFuel fuel l = l.drop (l.length - MAX_CACHE) := by
  induction fuel with
  | zero =>
    intro l hl
    have : l = [] := List.eq_nil_of_length_eq_zero (Nat.le_zero.mp hl)
    subst this
    rfl
  | succ n ih =>
    intro l hl
    rw [shiftLoopFuel]
    by_cases h : l.length > MAX_CACHE
    · simp only [if_pos h]
      match l, h with
      | a :: t, h =>
        have ht : t.length ≤ n := by
          simp only [List.length_cons] at hl
          omega
        have := ih t ht
        simp only [List.tail_cons, this, List.length_cons]
        have harith : t.length + 1 - MAX_CACHE = (t.length - MAX_CACHE) + 1 := by
          simp only [List.length_cons] at h
          omega
        rw [harith, List.drop_succ_cons]
    · simp only [if_neg h]
      have : l.length - MAX_CACHE = 0 := by omega
      rw [this, List.drop_zero]

/-- Closed form of the eviction loop. -/
theorem shiftLoop_eq (l : List StoredEvent) :
    shiftLoop l = l.drop (l.length - MAX_CACHE) :=
  shiftLoopFuel_eq l.length l (Nat.le_refl _)

/-- Closed form of one append: the bounded suffix of the extended list. -/
theorem pushCache_eq (e : StoredEvent) (c : List StoredEvent) :
    pushCache e c = (c ++ [e]).drop ((c.length + 1) - MAX_CACHE) := by
  rw [pushCache, shiftLoop_eq]
  simp

/-- Appending to a cache that is the bounded suffix of a history yields
the bounded suffix of the extended history. -/
theorem pushCache_drop (e : StoredEvent) (p : List StoredEvent) :
    pushCache e (p.drop (p.length - MAX_CACHE)) =
      (p ++ [e]).drop ((p.length + 1) - MAX_CACHE) := by
  rw [pushCache_eq]
  have hle : p.length - MAX_CACHE ≤ p.length := Nat.sub_le _ _
  rw [← List.drop_append_of_le_length hle, List.drop_drop, List.length_drop]
  have harith :
      p.length - MAX_CACHE + (p.length - (p.length - MAX_CACHE) + 1 - MAX_CACHE) =
        p.length + 1 - MAX_CACHE := by omega
  rw [harith]

/-! ## Trace invariant machinery -/

/-- `runFrom` distributes over trace concatenation. -/
theorem runFrom_append (st : ServerState) (ops₁ ops₂ : List Op) :
    runFrom st (ops₁ ++ ops₂) = runFrom (runFrom st ops₁) ops₂ :=
  List.foldl_append ..

/-- A state predicate preserved by every step holds along every trace. -/
theorem runFrom_inv (P : ServerState → Prop)
    (hstep : ∀ st op, P st → P (stepOp st op)) :
    ∀ (ops : List Op) (st : ServerState), P st → P (runFrom st ops) := by
  intro ops
  induction ops with
  | nil => intro st h; exact h
  | cons op ops ih =>
    intro st h
    exact ih (stepOp st op) (hstep st op h)

/-- The global invariant of reachable states: the id counter is one past
the number of appends; the appended ids are exactly `1, 2, …` in order;
the cache is the capacity-bounded suffix of the append history; every
subscriber's delivered updates form a sublist of the append history; and
subscriber identities are below the identity counter. -/
def GInv (st : ServerState) : Prop :=
  st.nextId = st.published.length + 1 ∧
  st.published.map StoredEvent.id = List.range' 1 st.published.length ∧
  st.cache = st.published.drop (st.published.length - MAX_CACHE) ∧
  (∀ c ∈ st.clients, (alarmEvents c.sent).Sublist st.published) ∧
  (∀ c ∈ st.clients, c.cid < st.nextCid)

/-- The update log of a sink extends by the broadcast event. -/
theorem alarmEvents_append (fs gs : List Frame) :
    alarmEvents (fs ++ gs) = alarmEvents fs ++ alarmEvents gs :=
  List.filterMap_append ..

/-- Every step of the event loop preserves the global invariant. -/
theorem stepOp_ginv (st : ServerState) (op : Op) (h : GInv st) : GInv (stepOp st op) := by
  obtain ⟨h1, h2, h3, h4, h5⟩ := h
  cases op with
  | ingest req =>
    show GInv (handlePost st req).1
    rw [handlePost]
    cases hrb : readBody req.chunks LIMIT_BYTES with
    | error e => exact ⟨h1, h2, h3, h4, h5⟩
    | ok raw =>
      simp only
      refine ⟨?_, ?_, ?_, ?_, ?_⟩
      · simp [doBroadcast, h1]
      · simp only [doBroadcast, List.map_append, h2, List.length_append, List.map_cons,
          List.map_nil, List.length_cons, List.length_nil]
        have hid : (mkEvent req st.nextId raw).id = st.nextId := rfl
        rw [hid, h1]
        have := @List.range'_concat 1 1 st.published.length
        simp only [one_mul] at this
        rw [Nat.add_comm 1 st.published.length] at this
        simpa using this.symm
      · simp only [doBroadcast]
        rw [h3]
        have := pushCache_drop (mkEvent req st.nextId raw) st.published
        simp only [List.length_append, List.length_singleton]
        exact this
      · intro c hc
        simp only [doBroadcast, broadcastClients, List.mem_map] at hc
        obtain ⟨c₀, hc₀, heq⟩ := hc
        subst heq
        by_cases hb : c₀.broken
        · simp only [if_pos hb]
          exact (h4 c₀ hc₀).trans (List.sublist_append_left _ _)
        · simp only [if_neg hb]
          simp only [alarmEvents_append]
          refine List.Sublist.append (h4 c₀ hc₀) ?_
          simp [alarmEvents]
      · intro c hc
        simp only [doBroadcast, broadcastClients, List.mem_map] at hc
        obtain ⟨c₀, hc₀, heq⟩ := hc
        subst heq
        by_cases hb : c₀.broken
        · simpa [if_pos hb] using h5 c₀ hc₀
        · simpa [if_neg hb] using h5 c₀ hc₀
  | connect =>
    show GInv (sseConnect st).1
    refine ⟨h1, h2, h3, ?_, ?_⟩
    · intro c hc
      simp only [sseConnect, List.mem_append, List.mem_singleton] at hc
      rcases hc with hc | hc
      · exact h4 c hc
      · subst hc
        simp [alarmEvents]
    · intro c hc
      simp only [sseConnect, List.mem_append, List.mem_singleton] at hc
      rcases hc with hc | hc
      · exact Nat.lt_succ_of_lt (h5 c hc)
      · subst hc
        exact Nat.lt_succ_self _
  | sinkFail cid =>
    refine ⟨h1, h2, h3, ?_, ?_⟩
    · intro c hc
      simp only [stepOp, breakClient, List.mem_map] at hc
      obtain ⟨c₀, hc₀, heq⟩ := hc
      subst heq
      by_cases hx : c₀.cid = cid
      · simpa [if_pos hx] using h4 c₀ hc₀
      · simpa [if_neg hx] using h4 c₀ hc₀
    · intro c hc
      simp only [stepOp, breakClient, List.mem_map] at hc
      obtain ⟨c₀, hc₀, heq⟩ := hc
      subst heq
      by_cases hx : c₀.cid = cid
      · simpa [if_pos hx] using h5 c₀ hc₀
      · simpa [if_neg hx] using h5 c₀ hc₀
  | close cid =>
    refine ⟨h1, h2, h3, ?_, ?_⟩
    · intro c hc
      simp only [stepOp, closeClient, List.mem_filter] at hc
      exact h4 c hc.1
    · intro c hc
      simp only [stepOp, closeClient, List.mem_filter] at hc
      exact h5 c hc.1

/-- The global invariant holds in every reachable state. -/
theorem ginv_runTrace (ops : List Op) : GInv (runTrace ops) := by
  refine runFrom_inv GInv stepOp_ginv ops initState ?_
  refine ⟨rfl, rfl, rfl, ?_, ?_⟩ <;> intro c hc <;> cases hc

/-! ## Subscriber lookup lemmas -/

/-- A found subscriber has the looked-up identity. -/
theorem getClient_some_cid {x : Nat} :
    ∀ {cs : List SseClient} {c : SseClient}, getClient x cs = some c → c.cid = x
  | [], _, h => by cases h
  | c₀ :: cs, c, h => by
    rw [getClient] at h
    by_cases hx : c₀.cid = x
    · rw [if_pos hx] at h
      cases h
      exact hx
    · rw [if_neg hx] at h
      exact getClient_some_cid h

/-- Lookup is stable under appending further subscribers. -/
theorem getClient_append_of_some {x : Nat} :
    ∀ {cs : List SseClient} {c : SseClient}, getClient x cs = some c →
      ∀ ds : List SseClient, getClient x (cs ++ ds) = some c
  | [], _, h, _ => by cases h
  | c₀ :: cs, c, h, ds => by
    rw [getClient] at h
    rw [List.cons_append, getClient]
    by_cases hx : c₀.cid = x
    · rw [if_pos hx] at h ⊢
      exact h
    · rw [if_neg hx] at h ⊢
      exact getClient_append_of_some h ds

/-- Lookup misses a set of subscribers that all carry other identities. -/
theorem getClient_eq_none_of_all_ne {x : Nat} :
    ∀ {cs : List SseClient}, (∀ c ∈ cs, c.cid ≠ x) → getClient x cs = none
  | [], _ => rfl
  | c₀ :: cs, h => by
    rw [getClient, if_neg (h c₀ (List.mem_cons_self _ _))]
    exact getClient_eq_none_of_all_ne (fun c hc => h c (List.mem_cons_of_mem _ hc))

/-- Lookup in an appended set skips a missed first part. -/
theorem getClient_append_of_none {x : Nat} :
    ∀ {cs : List SseClient}, getClient x cs = none →
      ∀ ds : List SseClient, getClient x (cs ++ ds) = getClient x ds
  | [], _, ds => rfl
  | c₀ :: cs, h, ds => by
    rw [getClient] at h
    by_cases hx : c₀.cid = x
    · rw [if_pos hx] at h
      cases h
    · rw [if_neg hx] at h
      rw [List.cons_append, getClient, if_neg hx]
      exact getClient_append_of_none h ds

/-- Lookup after a broadcast finds the subscriber with the frame
delivered (or untouched when its sink is broken). -/
theorem getClient_broadcast (fr : Frame) (x : Nat) :
    ∀ cs : List SseClient,
      getClient x (broadcastClients fr cs) =
        (getClient x cs).map
          (fun c => if c.broken then c else { c with sent := c.sent ++ [fr] })
  | [] => rfl
  | c₀ :: cs => by
    have hcid : (if c₀.broken then c₀ else { c₀ with sent := c₀.sent ++ [fr] }).cid = c₀.cid := by
      by_cases hb : c₀.broken <;> simp [hb]
    show getClient x
        ((if c₀.broken then c₀ else { c₀ with sent := c₀.sent ++ [fr] }) ::
          broadcastClients fr cs) = _
    rw [getClient, hcid, getClient]
    by_cases hx : c₀.cid = x
    · rw [if_pos hx, if_pos hx]
      rfl
    · rw [if_neg hx, if_neg hx]
      exact getClient_broadcast fr x cs

/-- Breaking a different subscriber's sink does not change a lookup. -/
theorem getClient_breakMap {x y : Nat} (hxy : y ≠ x) :
    ∀ cs : List SseClient,
      getClient x (cs.map (fun c => if c.cid = y then { c with broken := true } else c)) =
        getClient x cs
  | [] => rfl
  | c₀ :: cs => by
    have hcid : (if c₀.cid = y then { c₀ with broken := true } else c₀).cid = c₀.cid := by
      by_cases hb : c₀.cid = y <;> simp [hb]
    show getClient x
        ((if c₀.cid = y then { c₀ with broken := true } else c₀) ::
          cs.map (fun c => if c.cid = y then { c with broken := true } else c)) = _
    rw [getClient, hcid, getClient]
    by_cases hx : c₀.cid = x
    · rw [if_pos hx, if_pos hx]
      have hny : ¬ c₀.cid = y := by
        rw [hx]
        exact fun h => hxy h.symm
      rw [if_neg hny]
    · rw [if_neg hx, if_neg hx]
      exact getClient_breakMap hxy cs

/-- Removing a different identity does not change a lookup. -/
theorem getClient_filter_ne {x y : Nat} (hxy : x ≠ y) :
    ∀ cs : List SseClient,
      getClient x (cs.filter (fun c => c.cid ≠ y)) = getClient x cs
  | [] => rfl
  | c₀ :: cs => by
    by_cases hy : c₀.cid = y
    · have hnx : ¬ c₀.cid = x := by
        rw [hy]
        exact fun h => hxy h.symm
      have hfilter : (c₀ :: cs).filter (fun c => c.cid ≠ y) =
          cs.filter (fun c => c.cid ≠ y) := by
        simp [List.filter_cons, hy]
      rw [hfilter, getClient_filter_ne hxy cs, getClient, if_neg hnx]
    · have hfilter : (c₀ :: cs).filter (fun c => c.cid ≠ y) =
          c₀ :: cs.filter (fun c => c.cid ≠ y) := by
        simp [List.filter_cons, hy]
      rw [hfilter, getClient, getClient]
      by_cases hx : c₀.cid = x
      · rw [if_pos hx, if_pos hx]
      · rw [if_neg hx, if_neg hx, getClient_filter_ne hxy cs]

/-! ## The catch-up invariant (for C3)

`RelInv x k n₀ snap st` tracks one subscriber `x` from its subscription
on: `k` is how many events had been appended when it subscribed, `n₀` the
id counter at that moment, `snap` its catch-up content.  It asserts the
subscriber is still registered with an intact sink, has received exactly
the events appended after its subscription, in order, as updates after
its snapshot frame, and that all those late events carry ids at least
`n₀`. -/

/-- The per-subscriber catch-up invariant. -/
def RelInv (x k n₀ : Nat) (snap : List StoredEvent) (st : ServerState) : Prop :=
  k ≤ st.published.length ∧ n₀ ≤ st.nextId ∧ x < st.nextCid ∧
  (∀ e ∈ st.published.drop k, n₀ ≤ e.id) ∧
  ∃ c, getClient x st.clients = some c ∧ c.broken = false ∧
    c.sent = Frame.snapshot snap ::
      (st.published.drop k).map (fun e => Frame.alarm e e.id)

/-- Every step that neither breaks nor closes subscriber `x` preserves
its catch-up invariant. -/
theorem stepOp_relinv {x k n₀ : Nat} {snap : List StoredEvent} {st : ServerState} (op : Op)
    (hop1 : op ≠ Op.sinkFail x) (hop2 : op ≠ Op.close x)
    (h : RelInv x k n₀ snap st) : RelInv x k n₀ snap (stepOp st op) := by
  obtain ⟨hk, hn, hx, hids, c, hget, hbrok, hsent⟩ := h
  cases op with
  | ingest req =>
    show RelInv x k n₀ snap (handlePost st req).1
    cases hrb : readBody req.chunks LIMIT_BYTES with
    | error e =>
      have hstep : (handlePost st req).1 = st := by
        rw [handlePost, hrb]
      rw [hstep]
      exact ⟨hk, hn, hx, hids, c, hget, hbrok, hsent⟩
    | ok raw =>
      have hstep : (handlePost st req).1 =
          doBroadcast (mkEvent req st.nextId raw) st.nextId
            { st with
              nextId := st.nextId + 1
              cache := pushCache (mkEvent req st.nextId raw) st.cache } := by
        rw [handlePost, hrb]
      rw [hstep]
      have hdrop :
          (st.published ++ [mkEvent req st.nextId raw]).drop k =
            st.published.drop k ++ [mkEvent req st.nextId raw] :=
        List.drop_append_of_le_length hk
      refine ⟨?_, ?_, hx, ?_, ?_⟩
      · show k ≤ (st.published ++ [mkEvent req st.nextId raw]).length
        rw [List.length_append]
        omega
      · show n₀ ≤ st.nextId + 1
        omega
      · show ∀ e ∈ (st.published ++ [mkEvent req st.nextId raw]).drop k, n₀ ≤ e.id
        intro e he
        rw [hdrop] at he
        rcases List.mem_append.mp he with he | he
        · exact hids e he
        · rw [List.mem_singleton] at he
          subst he
          exact hn
      · refine ⟨{ c with sent :=
            c.sent ++ [Frame.alarm (mkEvent req st.nextId raw) st.nextId] }, ?_, hbrok, ?_⟩
        · show getClient x
            (broadcastClients (Frame.alarm (mkEvent req st.nextId raw) st.nextId) st.clients) = _
          rw [getClient_broadcast, hget, Option.map_some']
          rw [hbrok]
          rfl
        · show c.sent ++ [Frame.alarm (mkEvent req st.nextId raw) st.nextId] =
            Frame.snapshot snap ::
              ((st.published ++ [mkEvent req st.nextId raw]).drop k).map
                (fun e => Frame.alarm e e.id)
          rw [hdrop, List.map_append, hsent]
          rfl
  | connect =>
    show RelInv x k n₀ snap (sseConnect st).1
    refine ⟨hk, hn, Nat.lt_succ_of_lt hx, hids, c, ?_, hbrok, hsent⟩
    exact getClient_append_of_some hget _
  | sinkFail y =>
    have hyx : y ≠ x := fun h => hop1 (by rw [h])
    refine ⟨hk, hn, hx, hids, c, ?_, hbrok, hsent⟩
    show getClient x
        (st.clients.map (fun c => if c.cid = y then { c with broken := true } else c)) = some c
    rw [getClient_breakMap hyx, hget]
  | close y =>
    have hyx : x ≠ y := fun h => hop2 (by rw [h])
    refine ⟨hk, hn, hx, hids, c, ?_, hbrok, hsent⟩
    show getClient x (st.clients.filter (fun c => c.cid ≠ y)) = some c
    rw [getClient_filter_ne hyx, hget]

/-- The catch-up invariant persists along any trace that neither breaks
nor closes the tracked subscriber. -/
theorem relinv_runFrom {x k n₀ : Nat} {snap : List StoredEvent} :
    ∀ (ops : List Op) (st : ServerState), RelInv x k n₀ snap st →
      Op.sinkFail x ∉ ops → Op.close x ∉ ops →
      RelInv x k n₀ snap (runFrom st ops) := by
  intro ops
  induction ops with
  | nil => intro st h _ _; exact h
  | cons op ops ih =>
    intro st h hb hc
    have hb1 : op ≠ Op.sinkFail x := fun he => hb (he ▸ List.mem_cons_self _ _)
    have hc1 : op ≠ Op.close x := fun he => hc (he ▸ List.mem_cons_self _ _)
    exact ih (stepOp st op) (stepOp_relinv op hb1 hc1 h)
      (fun hm => hb (List.mem_cons_of_mem _ hm))
      (fun hm => hc (List.mem_cons_of_mem _ hm))

/-- Subscribing establishes the catch-up invariant: the snapshot frame
holds the cache at that moment and no update has been delivered yet. -/
theorem relinv_connect (st₁ : ServerState) (hg : GInv st₁) :
    RelInv st₁.nextCid st₁.published.length st₁.nextId st₁.cache
      (stepOp st₁ Op.connect) := by
  obtain ⟨h1, h2, h3, h4, h5⟩ := hg
  show RelInv _ _ _ _ (sseConnect st₁).1
  refine ⟨Nat.le_refl _, Nat.le_refl _, Nat.lt_succ_self _, ?_, ?_⟩
  · show ∀ e ∈ st₁.published.drop st₁.published.length, st₁.nextId ≤ e.id
    intro e he
    rw [List.drop_length] at he
    cases he
  · have hnone : getClient st₁.nextCid st₁.clients = none :=
      getClient_eq_none_of_all_ne (fun c hc => Nat.ne_of_lt (h5 c hc))
    refine ⟨{ cid := st₁.nextCid, sent := [Frame.snapshot st₁.cache], broken := false },
      ?_, rfl, ?_⟩
    · show getClient st₁.nextCid
        (st₁.clients ++
          [{ cid := st₁.nextCid, sent := [Frame.snapshot st₁.cache], broken := false }]) = _
      rw [getClient_append_of_none hnone, getClient]
      simp
    · show [Frame.snapshot st₁.cache] =
        Frame.snapshot st₁.cache ::
          (st₁.published.drop st₁.published.length).map (fun e => Frame.alarm e e.id)
      rw [List.drop_length]
      rfl

/-- In reachable states, every appended event's id is below the counter. -/
theorem published_id_lt (st : ServerState) (hg : GInv st) :
    ∀ e ∈ st.published, e.id < st.nextId := by
  intro e he
  have hmem : e.id ∈ st.published.map StoredEvent.id := List.mem_map_of_mem _ he
  rw [hg.2.1] at hmem
  have h2 := (List.mem_range'_1.mp hmem).2
  have h1 := hg.1
  omega

/-! ## Claim theorems -/

/-- C1: after any sequence of steps in which `N` events were appended
(`published` is the append history, in arrival order), the cache holds
exactly the last `min(N, MAX_CACHE)` appended events, as the
capacity-bounded suffix of the history, oldest first. -/
theorem c1_store_retains_bounded_suffix (ops : List Op) :
    (runTrace ops).cache =
      (runTrace ops).published.drop ((runTrace ops).published.length - MAX_CACHE) ∧
    (runTrace ops).cache.length = min (runTrace ops).published.length MAX_CACHE := by
  have h := ginv_runTrace ops
  refine ⟨h.2.2.1, ?_⟩
  rw [h.2.2.1, List.length_drop]
  omega

/-- C2: along every trace from the initial state, the ids assigned to the
appended events are exactly `1, 2, 3, …` in append order — strictly
increasing from 1 with no gaps and no repeats, each one more than its
predecessor. -/
theorem c2_ids_are_consecutive_from_one (ops : List Op) :
    (runTrace ops).published.map StoredEvent.id =
      List.range' 1 (runTrace ops).published.length :=
  (ginv_runTrace ops).2.1

/-- C7: each subscriber's received updates are a sublist of the append
history (publication happens once per append, immediately, in append
order, to the subscribers registered at that moment), so any two events
it receives arrive in append order — in particular the received ids are
strictly increasing. -/
theorem c7_updates_in_append_order (ops : List Op) :
    ∀ c ∈ (runTrace ops).clients,
      (alarmEvents c.sent).Sublist (runTrace ops).published ∧
      (alarmEvents c.sent).Pairwise (fun a b => a.id < b.id) := by
  intro c hc
  have h := ginv_runTrace ops
  have hsub := h.2.2.2.1 c hc
  refine ⟨hsub, ?_⟩
  have hpw : (runTrace ops).published.Pairwise (fun a b => a.id < b.id) := by
    have : ((runTrace ops).published.map StoredEvent.id).Pairwise (· < ·) := by
      rw [h.2.1]
      exact List.pairwise_lt_range' 1 _
    simpa [List.pairwise_map, Function.onFun] using this
  exact hpw.sublist hsub

/-- C3: a subscriber arriving after `ops₁` (and neither broken nor closed
afterwards) received, first, a catch-up frame equal to the store's exact
content at the moment of subscription, then, as updates, exactly the
events appended strictly after that moment — each exactly once, in append
order — and no event appears both in the catch-up frame and as an update
(the seam is gap-free and duplicate-free). -/
theorem c3_catchup_no_gap_no_duplicate (ops₁ ops₂ : List Op)
    (hb : Op.sinkFail (runTrace ops₁).nextCid ∉ ops₂)
    (hc : Op.close (runTrace ops₁).nextCid ∉ ops₂) :
    ∃ cl, getClient (runTrace ops₁).nextCid
        (runTrace (ops₁ ++ Op.connect :: ops₂)).clients = some cl ∧
      cl.broken = false ∧
      cl.sent = Frame.snapshot (runTrace ops₁).cache ::
        ((runTrace (ops₁ ++ Op.connect :: ops₂)).published.drop
            (runTrace ops₁).published.length).map (fun e => Frame.alarm e e.id) ∧
      ∀ e ∈ (runTrace ops₁).cache,
        ∀ e' ∈ (runTrace (ops₁ ++ Op.connect :: ops₂)).published.drop
            (runTrace ops₁).published.length,
          e.id ≠ e'.id := by
  have hg := ginv_runTrace ops₁
  have hrun : runTrace (ops₁ ++ Op.connect :: ops₂) =
      runFrom (stepOp (runTrace ops₁) Op.connect) ops₂ := by
    rw [runTrace, runFrom_append]
    rfl
  have hrel := relinv_runFrom ops₂ _ (relinv_connect (runTrace ops₁) hg) hb hc
  rw [← hrun] at hrel
  obtain ⟨hk, hn, hx, hids, cl, hget, hbrok, hsent⟩ := hrel
  refine ⟨cl, hget, hbrok, hsent, ?_⟩
  intro e he e' he'
  have h1 : e.id < (runTrace ops₁).nextId := by
    apply published_id_lt _ hg
    rw [hg.2.2.1] at he
    exact List.mem_of_mem_drop he
  have h2 := hids e' he'
  omega

/-- Witness for C3: subscribe on the empty trace, then ingest one event. -/
theorem c3_catchup_no_gap_no_duplicate_witness :
    (Op.sinkFail (runTrace []).nextCid ∉ [Op.ingest samplePost]) ∧
    (Op.close (runTrace []).nextCid ∉ [Op.ingest samplePost]) ∧
    (∃ cl, getClient (runTrace []).nextCid
        (runTrace ([] ++ Op.connect :: [Op.ingest samplePost])).clients = some cl ∧
      cl.broken = false ∧
      cl.sent = Frame.snapshot (runTrace []).cache ::
        ((runTrace ([] ++ Op.connect :: [Op.ingest samplePost])).published.drop
            (runTrace []).published.length).map (fun e => Frame.alarm e e.id) ∧
      ∀ e ∈ (runTrace []).cache,
        ∀ e' ∈ (runTrace ([] ++ Op.connect :: [Op.ingest samplePost])).published.drop
            (runTrace []).published.length,
          e.id ≠ e'.id) :=
  ⟨by decide, by decide,
    c3_catchup_no_gap_no_duplicate [] [Op.ingest samplePost] (by decide) (by decide)⟩

/-- C5 (amended): a failing write to one subscriber is caught and ignored
by `broadcast` — every other registered subscriber with an intact sink
still receives the frame, the publish call returns normally, and the
registry is unchanged: in particular the failed subscriber is NOT removed
from the active set by the publish (removal happens only through the
connection's close event). -/
theorem c5_broadcast_failure_isolation (fr : Frame) (cs : List SseClient) :
    (broadcastClients fr cs).map SseClient.cid = cs.map SseClient.cid ∧
    (∀ c ∈ cs, c.broken = false →
      { c with sent := c.sent ++ [fr] } ∈ broadcastClients fr cs) ∧
    (∀ c ∈ cs, c.broken = true → c ∈ broadcastClients fr cs) := by
  refine ⟨?_, ?_, ?_⟩
  · rw [broadcastClients, List.map_map]
    apply List.map_congr_left
    intro c _
    by_cases hb : c.broken <;> simp [hb]
  · intro c hc hb
    have hmem := List.mem_map_of_mem
      (fun c => if c.broken then c else { c with sent := c.sent ++ [fr] }) hc
    rw [broadcastClients]
    simpa [hb] using hmem
  · intro c hc hb
    have hmem := List.mem_map_of_mem
      (fun c => if c.broken then c else { c with sent := c.sent ++ [fr] }) hc
    rw [broadcastClients]
    simpa [hb] using hmem

/-- Witness for C5 on a two-subscriber set with one broken sink. -/
theorem c5_broadcast_failure_isolation_witness :
    ((broadcastClients (Frame.alarm sampleEvent 1)
        [⟨0, [], true⟩, ⟨1, [], false⟩]).map SseClient.cid =
      ([⟨0, [], true⟩, ⟨1, [], false⟩] : List SseClient).map SseClient.cid) ∧
    (({ cid := 1, sent := [] ++ [Frame.alarm sampleEvent 1], broken := false } : SseClient) ∈
      broadcastClients (Frame.alarm sampleEvent 1) [⟨0, [], true⟩, ⟨1, [], false⟩]) ∧
    ((⟨0, [], true⟩ : SseClient) ∈
      broadcastClients (Frame.alarm sampleEvent 1) [⟨0, [], true⟩, ⟨1, [], false⟩]) :=
  ⟨(c5_broadcast_failure_isolation (Frame.alarm sampleEvent 1)
      [⟨0, [], true⟩, ⟨1, [], false⟩]).1,
    (c5_broadcast_failure_isolation (Frame.alarm sampleEvent 1)
      [⟨0, [], true⟩, ⟨1, [], false⟩]).2.1 ⟨1, [], false⟩
      (List.mem_cons_of_mem _ (List.mem_cons_self _ _)) rfl,
    (c5_broadcast_failure_isolation (Frame.alarm sampleEvent 1)
      [⟨0, [], true⟩, ⟨1, [], false⟩]).2.2 ⟨0, [], true⟩ (List.mem_cons_self _ _) rfl⟩

/-- Counterexample to C5 as stated: after a publish during which the
write to subscriber 0 failed (its sink is broken), subscriber 0 is still
a member of the active set — `broadcast` swallows the error and does not
unsubscribe it. -/
theorem c5_counterexample_failed_subscriber_not_removed :
    (⟨0, [], true⟩ : SseClient).broken = true ∧
    (⟨0, [], true⟩ : SseClient) ∈
      broadcastClients (Frame.alarm sampleEvent 1) [⟨0, [], true⟩, ⟨1, [], false⟩] ∧
    (broadcastClients (Frame.alarm sampleEvent 1) [⟨0, [], true⟩, ⟨1, [], false⟩]).length = 2 := by
  refine ⟨rfl, ?_, rfl⟩
  show (⟨0, [], true⟩ : SseClient) ∈
    ((⟨0, [], true⟩ : SseClient) ::
      [{ cid := 1, sent := [] ++ [Frame.alarm sampleEvent 1], broken := false }])
  exact List.mem_cons_self _ _

/-- Over-limit chunk sequences make the read loop reject, provided the
running total is still within the limit (as it always is when the loop is
entered). -/
theorem readBodyGo_error (limitBytes : Nat) :
    ∀ (chunks : List String) (total : Nat) (acc : String),
      limitBytes < total + totalBytes chunks → total ≤ limitBytes →
      readBodyGo limitBytes chunks total acc = Except.error "Payload too large" := by
  intro chunks
  induction chunks with
  | nil =>
    intro total acc hover hle
    exfalso
    simp only [totalBytes, List.map_nil, List.sum_nil, Nat.add_zero] at hover
    omega
  | cons c rest ih =>
    intro total acc hover hle
    have htot : totalBytes (c :: rest) = strBytes c + totalBytes rest := by
      simp [totalBytes]
    rw [readBodyGo]
    by_cases hc : total + strBytes c > limitBytes
    · rw [if_pos hc]
    · rw [if_neg hc]
      exact ih (total + strBytes c) (acc ++ c) (by omega) (by omega)

/-- A body larger than the limit is rejected by `readBody`. -/
theorem readBody_oversize (chunks : List String) (h : LIMIT_BYTES < totalBytes chunks) :
    readBody chunks LIMIT_BYTES = Except.error "Payload too large" := by
  rw [readBody]
  exact readBodyGo_error LIMIT_BYTES chunks 0 "" (by omega) (Nat.zero_le _)

/-- C4: an authorized ingest request whose payload exceeds the 2 MiB
limit leaves the whole state — cache, id counter and subscriber set —
unchanged and is answered with the 500 failure response, which is
distinct from the 204 success acknowledgement. -/
theorem c4_oversized_payload_rejected (cfg : Config) (st : ServerState) (req : Request)
    (hauth : requireAuthIfConfigured cfg req = true)
    (hm : req.method = "POST") (hp : req.pathname = PATH)
    (hsize : LIMIT_BYTES < totalBytes req.chunks) :
    handleRequest cfg st req = (st, Response.internalError) ∧
    Response.internalError ≠ Response.noContent := by
  refine ⟨?_, fun h => Response.noConfusion h⟩
  rw [handleRequest, if_neg (fun hn => hn hauth), if_neg (by simp [hm]), if_neg (by simp [hm]),
    if_pos hp, if_pos hm, handlePost, readBody_oversize _ hsize]

/-- Witness for C4 at a payload one byte over the limit. -/
theorem c4_oversized_payload_rejected_witness :
    requireAuthIfConfigured ⟨"", ""⟩ oversizedPost = true ∧
    oversizedPost.method = "POST" ∧ oversizedPost.pathname = PATH ∧
    LIMIT_BYTES < totalBytes oversizedPost.chunks ∧
    (handleRequest ⟨"", ""⟩ initState oversizedPost = (initState, Response.internalError) ∧
      Response.internalError ≠ Response.noContent) := by
  have hbytes : strBytes oversizedChunk = LIMIT_BYTES + 1 := by
    rw [oversizedChunk, strBytes]
    show ((List.replicate (LIMIT_BYTES + 1) 'a').map charUtf8Size).sum = LIMIT_BYTES + 1
    rw [List.map_replicate]
    have hone : charUtf8Size 'a' = 1 := rfl
    rw [hone, List.sum_replicate, smul_eq_mul, Nat.mul_one]
  have hsize : LIMIT_BYTES < totalBytes oversizedPost.chunks := by
    show LIMIT_BYTES < totalBytes [oversizedChunk]
    rw [totalBytes]
    simp only [List.map_cons, List.map_nil, List.sum_cons, List.sum_nil, hbytes]
    omega
  exact ⟨by decide, rfl, rfl, hsize,
    c4_oversized_payload_rejected ⟨"", ""⟩ initState oversizedPost (by decide) rfl rfl hsize⟩

/-- An authorized POST to the webhook path reaches the POST branch. -/
theorem handleRequest_post (cfg : Config) (st : ServerState) (req : Request)
    (hauth : requireAuthIfConfigured cfg req = true)
    (hm : req.method = "POST") (hp : req.pathname = PATH) :
    handleRequest cfg st req = handlePost st req := by
  rw [handleRequest, if_neg (fun hn => hn hauth), if_neg (by simp [hm]), if_neg (by simp [hm]),
    if_pos hp, if_pos hm]

/-- C6 (amended): an authorized ingest request declaring a JSON content
type whose payload fails to parse is still acknowledged with the success
response, and the appended event's body is the parse-error record carrying
the marker `"invalid json"` and the raw payload text — under the key
names the code uses, `_parseError` and `raw`. -/
theorem c6_invalid_json_stored_as_error_record (cfg : Config) (st : ServerState)
    (req : Request) (raw : String)
    (hauth : requireAuthIfConfigured cfg req = true)
    (hm : req.method = "POST") (hp : req.pathname = PATH)
    (hread : readBody req.chunks LIMIT_BYTES = Except.ok raw)
    (hct : strIncludes (lowerStr (headerStr req.headers.contentType)) "application/json" = true)
    (hbad : jsonParse (if raw = "" then "null" else raw) = none) :
    (handleRequest cfg st req).2 = Response.noContent ∧
    ∃ e, (handleRequest cfg st req).1.published = st.published ++ [e] ∧
      e.body = Json.obj [("_parseError", Json.str "invalid json"), ("raw", Json.str raw)] := by
  rw [handleRequest_post cfg st req hauth hm hp, handlePost, hread]
  refine ⟨rfl, ⟨mkEvent req st.nextId raw, rfl, ?_⟩⟩
  show bodyOfPost req.headers.contentType raw =
    Json.obj [("_parseError", Json.str "invalid json"), ("raw", Json.str raw)]
  rw [bodyOfPost, if_pos hct, hbad]

/-- Witness for C6 (amended) at the `not-json` payload. -/
theorem c6_invalid_json_stored_as_error_record_witness :
    readBody samplePostInvalid.chunks LIMIT_BYTES = Except.ok "not-json" ∧
    jsonParse (if "not-json" = "" then "null" else "not-json") = none ∧
    ((handleRequest ⟨"", ""⟩ initState samplePostInvalid).2 = Response.noContent ∧
      ∃ e, (handleRequest ⟨"", ""⟩ initState samplePostInvalid).1.published =
          initState.published ++ [e] ∧
        e.body = Json.obj [("_parseError", Json.str "invalid json"),
          ("raw", Json.str "not-json")]) :=
  ⟨rfl, rfl,
    c6_invalid_json_stored_as_error_record ⟨"", ""⟩ initState samplePostInvalid "not-json"
      (by decide) rfl rfl rfl rfl rfl⟩

/-- Counterexample to C6 as stated: the stored body's record carries the
key `_parseError` (first member key), not `parseError`, so it differs from
the record `{parseError: "invalid json", rawText: "not-json"}` the claim
names. -/
theorem c6_counterexample_key_names :
    ((runTrace [Op.ingest samplePostInvalid]).published.map (fun e => e.body) =
      [Json.obj [("_parseError", Json.str "invalid json"), ("raw", Json.str "not-json")]]) ∧
    ((runTrace [Op.ingest samplePostInvalid]).published.map (fun e => e.body) ≠
      [Json.obj [("parseError", Json.str "invalid json"), ("rawText", Json.str "not-json")]]) := by
  have hmap : (runTrace [Op.ingest samplePostInvalid]).published.map (fun e => e.body) =
      [Json.obj [("_parseError", Json.str "invalid json"), ("raw", Json.str "not-json")]] := rfl
  refine ⟨hmap, fun h => ?_⟩
  rw [hmap] at h
  injection h with h1 h2
  have h3 := congrArg jsonFirstKey h1
  exact absurd h3 (by decide)

/-- C9: an authorized ingest request declaring a JSON content type with an
empty (zero-byte) payload succeeds, and the appended event's body is the
JSON value `null` — not a parse-error record (the code parses
`raw || "null"`). -/
theorem c9_empty_json_payload_stored_as_null (cfg : Config) (st : ServerState) (req : Request)
    (hauth : requireAuthIfConfigured cfg req = true)
    (hm : req.method = "POST") (hp : req.pathname = PATH)
    (hread : readBody req.chunks LIMIT_BYTES = Except.ok "")
    (hct : strIncludes (lowerStr (headerStr req.headers.contentType)) "application/json" = true) :
    (handleRequest cfg st req).2 = Response.noContent ∧
    ∃ e, (handleRequest cfg st req).1.published = st.published ++ [e] ∧
      e.body = Json.null := by
  rw [handleRequest_post cfg st req hauth hm hp, handlePost, hread]
  refine ⟨rfl, ⟨mkEvent req st.nextId "", rfl, ?_⟩⟩
  show bodyOfPost req.headers.contentType "" = Json.null
  rw [bodyOfPost, if_pos hct]
  rfl

/-- Witness for C9 at the zero-chunk request. -/
theorem c9_empty_json_payload_stored_as_null_witness :
    readBody samplePostEmpty.chunks LIMIT_BYTES = Except.ok "" ∧
    ((handleRequest ⟨"", ""⟩ initState samplePostEmpty).2 = Response.noContent ∧
      ∃ e, (handleRequest ⟨"", ""⟩ initState samplePostEmpty).1.published =
          initState.published ++ [e] ∧
        e.body = Json.null) :=
  ⟨rfl,
    c9_empty_json_payload_stored_as_null ⟨"", ""⟩ initState samplePostEmpty
      (by decide) rfl rfl rfl rfl⟩

/-- Witness for C7 at the one-subscriber trace. -/
theorem c7_updates_in_append_order_witness :
    ((⟨0, [Frame.snapshot []], false⟩ : SseClient) ∈ (runTrace [Op.connect]).clients) ∧
    ((alarmEvents (⟨0, [Frame.snapshot []], false⟩ : SseClient).sent).Sublist
        (runTrace [Op.connect]).published ∧
      (alarmEvents (⟨0, [Frame.snapshot []], false⟩ : SseClient).sent).Pairwise
        (fun a b => a.id < b.id)) := by
  have hmem : (⟨0, [Frame.snapshot []], false⟩ : SseClient) ∈ (runTrace [Op.connect]).clients :=
    List.Mem.head _
  exact ⟨hmem, c7_updates_in_append_order [Op.connect] _ hmem⟩

/-! ## Wire-framing lemmas (for C8) -/

/-- Splitting yields at least one piece. -/
theorem splitOnCharList_ne_nil (sep : Char) : ∀ cs : List Char, splitOnCharList sep cs ≠ [] := by
  intro cs
  cases cs with
  | nil => simp [splitOnCharList]
  | cons c cs =>
    rw [splitOnCharList]
    by_cases h : c = sep
    · simp [h]
    · simp only [if_neg h]
      cases hrec : splitOnCharList sep cs with
      | nil => simp
      | cons piece more => simp

/-- Every payload produces at least one `data:` line. -/
theorem one_le_dataLines (d : Json) : 1 ≤ (dataLines d).length := by
  have h := splitOnCharList_ne_nil '\n' (jsonStringify d).data
  rw [dataLines, splitStr]
  simp only [List.length_map]
  exact List.length_pos.mpr h

/-- A list starts with itself. -/
theorem startsChars_append_self : ∀ (p cs : List Char), startsChars (p ++ cs) p = true
  | [], cs => by cases cs <;> rfl
  | c :: p, cs => by
    show startsChars (c :: (p ++ cs)) (c :: p) = true
    simp [startsChars, startsChars_append_self p cs]

/-- The identifier line is recognized as such. -/
theorem isIdLine_id (i : Nat) : isIdLine ("id: " ++ Nat.repr i ++ "\n") = true := by
  rw [isIdLine, strStarts]
  have hdata : ("id: " ++ Nat.repr i ++ "\n").data =
      "id: ".data ++ ((Nat.repr i).data ++ "\n".data) := by
    rw [String.data_append, String.data_append, List.append_assoc]
  rw [hdata]
  exact startsChars_append_self "id: ".data _

/-- A `data:` line is never an identifier line. -/
theorem isIdLine_data_line (line : String) : isIdLine ("data: " ++ line ++ "\n") = false := by
  rw [isIdLine, strStarts]
  have hdata : ("data: " ++ line ++ "\n").data =
      'd' :: ("ata: ".data ++ (line.data ++ "\n".data)) := by
    rw [String.data_append, String.data_append, List.append_assoc]
    rfl
  rw [hdata]
  show (decide (('d' : Char) = 'i') &&
    startsChars ("ata: ".data ++ (line.data ++ "\n".data)) "d: ".data) = false
  rw [show (decide (('d' : Char) = 'i')) = false from rfl, Bool.false_and]

/-- No `data:` line of a frame survives the identifier-line filter. -/
theorem filter_dataLines (d : Json) : (dataLines d).filter isIdLine = [] := by
  rw [List.filter_eq_nil_iff]
  intro a ha
  rw [dataLines] at ha
  obtain ⟨x, _, hx⟩ := List.mem_map.mp ha
  rw [← hx]
  simp [isIdLine_data_line]

/-- C8: a snapshot frame on the wire is the `event: snapshot` kind line,
one or more `data:` lines carrying the JSON payload split at its
newlines, and a terminating blank line, with no identifier line; an alarm
frame is the same preceded by exactly one identifier line carrying the
event's id. -/
theorem c8_frame_wire_structure (items : List StoredEvent) (e : StoredEvent) (i : Nat) :
    renderFrame (Frame.snapshot items) =
      ["event: snapshot\n"] ++ dataLines (itemsJson items) ++ ["\n"] ∧
    renderFrame (Frame.alarm e i) =
      ["id: " ++ Nat.repr i ++ "\n"] ++ ["event: alarm\n"] ++ dataLines (eventToJson e) ++ ["\n"] ∧
    (renderFrame (Frame.snapshot items)).filter isIdLine = [] ∧
    (renderFrame (Frame.alarm e i)).filter isIdLine = ["id: " ++ Nat.repr i ++ "\n"] ∧
    1 ≤ (dataLines (itemsJson items)).length ∧
    1 ≤ (dataLines (eventToJson e)).length ∧
    (renderFrame (Frame.snapshot items)).getLast? = some "\n" ∧
    (renderFrame (Frame.alarm e i)).getLast? = some "\n" := by
  have hsnap : renderFrame (Frame.snapshot items) =
      ["event: snapshot\n"] ++ dataLines (itemsJson items) ++ ["\n"] := rfl
  have halarm : renderFrame (Frame.alarm e i) =
      ["id: " ++ Nat.repr i ++ "\n"] ++ ["event: alarm\n"] ++
        dataLines (eventToJson e) ++ ["\n"] := rfl
  refine ⟨hsnap, halarm, ?_, ?_, one_le_dataLines _, one_le_dataLines _, ?_, ?_⟩
  · rw [hsnap, List.filter_append, List.filter_append, filter_dataLines]
    rfl
  · rw [halarm, List.filter_append, List.filter_append, List.filter_append, filter_dataLines]
    have hid : (["id: " ++ Nat.repr i ++ "\n"]).filter isIdLine = ["id: " ++ Nat.repr i ++ "\n"] := by
      rw [List.filter_cons, if_pos (isIdLine_id i)]
      rfl
    rw [hid]
    rfl
  · rw [hsnap]
    exact List.getLast?_concat _
  · rw [halarm]
    exact List.getLast?_concat _

/-! ## The auth gate (for C10) -/

/-- C10: the gate is disabled exactly when both configured values are
empty; when configured, any request whose credentials are missing or do
not equal both configured values exactly is answered with the 401
challenge and leaves the whole state (cache, id counter, subscriber set)
unchanged, for every method and path. -/
theorem c10_auth_gate (cfg : Config) (st : ServerState) (req : Request) :
    ((∀ r : Request, requireAuthIfConfigured cfg r = true) ↔
      (cfg.basicUser = "" ∧ cfg.basicPass = "")) ∧
    (¬(cfg.basicUser = "" ∧ cfg.basicPass = "") →
      (∀ cred, parseBasicAuth req = some cred → cred ≠ (cfg.basicUser, cfg.basicPass)) →
      handleRequest cfg st req = (st, Response.unauthorized)) := by
  constructor
  · constructor
    · intro hall
      by_cases hempty : cfg.basicUser = "" ∧ cfg.basicPass = ""
      · exact hempty
      · exfalso
        have hgate := hall plainGet
        rw [requireAuthIfConfigured, if_neg hempty] at hgate
        have hpb : parseBasicAuth plainGet = none := rfl
        rw [hpb] at hgate
        cases hgate
    · intro hempty r
      rw [requireAuthIfConfigured, if_pos hempty]
  · intro hconf hcred
    have hgate : requireAuthIfConfigured cfg req = false := by
      rw [requireAuthIfConfigured, if_neg hconf]
      cases hpb : parseBasicAuth req with
      | none => rfl
      | some cred =>
        obtain ⟨u, p⟩ := cred
        have hne := hcred (u, p) hpb
        exact decide_eq_false (fun hand => hne (by rw [hand.1, hand.2]))
    rw [handleRequest, if_pos (by simp [hgate])]

/-- Witness for C10: a configured gate rejects a credential-less request. -/
theorem c10_auth_gate_witness :
    (¬((⟨"u", "p"⟩ : Config).basicUser = "" ∧ (⟨"u", "p"⟩ : Config).basicPass = "")) ∧
    handleRequest ⟨"u", "p"⟩ initState plainGet = (initState, Response.unauthorized) :=
  ⟨by decide,
    (c10_auth_gate ⟨"u", "p"⟩ initState plainGet).2 (by decide)
      (fun cred h => nomatch (show (none : Option (String × String)) = some cred from h))⟩

end Sdwan

example : Sdwan.jsonParse "null" = some Sdwan.Json.null := rfl
example : Sdwan.jsonParse "not-json" = none := rfl
example : Sdwan.jsonParse " \x7b\"a\": [1, true, \"x\\n\"]\x7d " =
    some (Sdwan.Json.obj [("a", Sdwan.Json.arr [.num "1", .bool true, .str (String.mk ['x', '\n'])])]) := rfl
example : Sdwan.jsonStringify (Sdwan.Json.obj [("a", .str "b")]) = "\x7b\"a\":\"b\"\x7d" := rfl
